import Mathlib

/-
Verification development for the SpartaPay payments/events/organizations
reconciliation layer (Express server in `src/unnamed/part_003`, migration
script `src/migrate-to-firestore.js`, officer dashboard
`src/public/officer-dashboard.js`).

Strings are modelled as `List Char`.  The JavaScript string helpers used by
the server (`trim`, `toLowerCase`, `replace(/\s+/g, ' ')`) are modelled over
the ASCII fragment that the server manipulates: the whitespace class is
`space/tab/newline/carriage-return` and `toLowerCase` maps the 26 ASCII
uppercase letters (all other characters are left unchanged, which agrees
with JavaScript on every character appearing in the concrete inputs used
below).  JavaScript `null`/`undefined`/missing-field values are modelled as
`Option` with `none`; the truthiness tests the server performs on strings
(`if (!x)`) are modelled by `truthyS`, under which the empty string is falsy
exactly as in JavaScript.  Numbers flowing out of `parseFloat` are modelled
as `Option ℚ`, with `none` playing the role of `NaN`.

External collaborators (Firestore document mirror, Supabase object store,
the identity provider) are out of the modelled code: the server treats them
as best-effort mirrors and the local `data.json` path is the one embedded
here, with the outcome of object-storage calls supplied as explicit boolean
parameters (`Env`).
-/

namespace SpartaPay

abbrev Str := List Char

/-- JavaScript whitespace (the fragment relevant to this code base):
space, tab, line feed, carriage return. -/
def isWsChar (c : Char) : Bool :=
  c = ' ' || c = '\t' || c = '\n' || c = '\r'

/-- ASCII lower-casing of a single character, as performed by
`String.prototype.toLowerCase` on the ASCII range; characters outside
`A`-`Z` are unchanged. -/
def toLowerChar (c : Char) : Char :=
  match c with
  | 'A' => 'a' | 'B' => 'b' | 'C' => 'c' | 'D' => 'd' | 'E' => 'e'
  | 'F' => 'f' | 'G' => 'g' | 'H' => 'h' | 'I' => 'i' | 'J' => 'j'
  | 'K' => 'k' | 'L' => 'l' | 'M' => 'm' | 'N' => 'n' | 'O' => 'o'
  | 'P' => 'p' | 'Q' => 'q' | 'R' => 'r' | 'S' => 's' | 'T' => 't'
  | 'U' => 'u' | 'V' => 'v' | 'W' => 'w' | 'X' => 'x' | 'Y' => 'y'
  | 'Z' => 'z'
  | other => other

/-- Model of `String.prototype.toLowerCase`. -/
def lowerChars (s : Str) : Str := s.map toLowerChar

/-- Model of `String.prototype.trim`: drop whitespace from both ends. -/
def trimChars (s : Str) : Str :=
  ((s.dropWhile isWsChar).reverse.dropWhile isWsChar).reverse

theorem length_dropWhile_le (p : Char → Bool) (l : List Char) :
    (List.dropWhile p l).length ≤ l.length := by
  induction l with
  | nil => simp
  | cons c cs ih =>
    by_cases h : p c = true
    · simp only [List.dropWhile_cons, h, if_true, List.length_cons]
      omega
    · simp [List.dropWhile_cons, h]

/-- Worker for `collapseWs`: the flag records whether the previous
character belonged to a whitespace run already emitted as one space. -/
def collapseWsAux : Bool → List Char → List Char
  | _, [] => []
  | prevWs, c :: rest =>
    if isWsChar c then
      if prevWs then collapseWsAux true rest
      else ' ' :: collapseWsAux true rest
    else c :: collapseWsAux false rest

/-- Model of `.replace(/\s+/g, ' ')`: collapse each maximal whitespace run
to a single space. -/
def collapseWs (s : List Char) : List Char := collapseWsAux false s

/-- Embedding of `canonicalOrgName` (src/unnamed/part_003 lines 286-293):
`String(name || '').trim().toLowerCase()`.  Note that the server function
neither collapses internal whitespace nor strips diacritics. -/
def canonicalOrgName (name : Str) : Str :=
  lowerChars (trimChars name)

/-- Embedding of `normalizeFilterValue` (src/unnamed/part_003 lines
296-302): `String(val || '').trim().replace(/\s+/g, ' ').toLowerCase()`. -/
def normalizeFilterValue (v : Str) : Str :=
  lowerChars (collapseWs (trimChars v))

/-- Truthiness of an optional string under JavaScript rules: `null`,
`undefined` and the empty string are falsy. -/
def truthyS : Option Str → Bool
  | none => false
  | some [] => false
  | some (_ :: _) => true

/-- Model of the JavaScript idiom `x || null`: collapse a falsy string
value to `none`. -/
def optS (v : Option Str) : Option Str :=
  if truthyS v then v else none

/-- Model of the JavaScript idiom `x || d` on strings: a falsy value is
replaced by the default. -/
def orDefaultS (v : Option Str) (d : Str) : Str :=
  match v with
  | some s => if s = [] then d else s
  | none => d

-- ---------------------------------------------------------------------
-- Helper lemmas about the string functions
-- ---------------------------------------------------------------------

theorem dropWhile_append_all {p : Char → Bool} {pre l : List Char}
    (h : ∀ c ∈ pre, p c = true) :
    List.dropWhile p (pre ++ l) = List.dropWhile p l := by
  induction pre with
  | nil => rfl
  | cons c cs ih =>
    have hc : p c = true := h c (List.mem_cons_self c cs)
    simp only [List.cons_append, List.dropWhile_cons, hc, if_true]
    exact ih (fun d hd => h d (List.mem_cons_of_mem c hd))

theorem toLowerChar_ws (c : Char) :
    isWsChar (toLowerChar c) = isWsChar c := by
  unfold toLowerChar
  split <;> rfl

theorem dropWhile_map_toLower (l : List Char) :
    List.dropWhile isWsChar (l.map toLowerChar) =
      (List.dropWhile isWsChar l).map toLowerChar := by
  induction l with
  | nil => rfl
  | cons c cs ih =>
    simp only [List.map_cons, List.dropWhile_cons, toLowerChar_ws]
    by_cases h : isWsChar c = true
    · simp [h, ih]
    · simp [h]

theorem trim_map_toLower (s : Str) :
    trimChars (s.map toLowerChar) = (trimChars s).map toLowerChar := by
  unfold trimChars
  rw [dropWhile_map_toLower, ← List.map_reverse, dropWhile_map_toLower,
    ← List.map_reverse]

theorem ltrim_append_of_all {pre l : List Char}
    (h : ∀ c ∈ pre, isWsChar c = true) :
    List.dropWhile isWsChar (pre ++ l) = List.dropWhile isWsChar l :=
  dropWhile_append_all h

/-- Dropping trailing whitespace ignores an all-whitespace suffix. -/
theorem rtrim_append_of_all {post l : List Char}
    (h : ∀ c ∈ post, isWsChar c = true) :
    ((l ++ post).reverse.dropWhile isWsChar).reverse =
      (l.reverse.dropWhile isWsChar).reverse := by
  rw [List.reverse_append, dropWhile_append_all]
  intro c hc
  exact h c (List.mem_reverse.mp hc)

theorem ltrim_append_cases (s t : List Char) :
    (List.dropWhile isWsChar s = [] ∧
      List.dropWhile isWsChar (s ++ t) = List.dropWhile isWsChar t) ∨
    List.dropWhile isWsChar (s ++ t) = List.dropWhile isWsChar s ++ t := by
  induction s with
  | nil => exact Or.inl ⟨rfl, rfl⟩
  | cons c cs ih =>
    by_cases h : isWsChar c = true
    · rcases ih with ⟨h1, h2⟩ | h3
      · exact Or.inl ⟨by simp [List.dropWhile_cons, h, h1],
          by simp [List.dropWhile_cons, h, h2]⟩
      · exact Or.inr (by simp [List.dropWhile_cons, h, h3])
    · exact Or.inr (by simp [List.dropWhile_cons, h])

theorem trim_pad (s pre post : Str)
    (hpre : ∀ c ∈ pre, isWsChar c = true)
    (hpost : ∀ c ∈ post, isWsChar c = true) :
    trimChars (pre ++ s ++ post) = trimChars s := by
  unfold trimChars
  rw [List.append_assoc, ltrim_append_of_all hpre]
  rcases ltrim_append_cases s post with ⟨h1, h2⟩ | h3
  · rw [h2, h1]
    have hp : List.dropWhile isWsChar post = [] :=
      List.dropWhile_eq_nil_iff.mpr hpost
    simp [hp]
  · rw [h3]
    exact rtrim_append_of_all hpost

-- ---------------------------------------------------------------------
-- C1
-- ---------------------------------------------------------------------

/-- C1 (counterexample): the claim asserts that the organization-identity
canonicalization returns equal results on strings that differ only in
accent marks, and that it collapses internal whitespace.  The server's
`canonicalOrgName` only trims and lowercases: on the pair `café` / `cafe`
(which differ only in the accent on the final letter) it returns distinct
results, and it maps `a␣␣b` and `a␣b` (which differ only in an internal
whitespace run) to distinct results as well. -/
theorem canonicalOrgName_not_diacritic_insensitive :
    canonicalOrgName ['c', 'a', 'f', 'é'] ≠ canonicalOrgName ['c', 'a', 'f', 'e'] ∧
    canonicalOrgName ['a', ' ', ' ', 'b'] ≠ canonicalOrgName ['a', ' ', 'b'] := by
  constructor <;> decide

/-- C1 (amended): `canonicalOrgName` is invariant under ASCII case changes
and under adding or removing leading/trailing whitespace, which is all the
server function normalizes (it does not strip diacritics and does not
collapse internal whitespace). -/
theorem canonicalOrgName_case_ws_invariant (s1 s2 pre post : Str)
    (hpre : ∀ c ∈ pre, isWsChar c = true)
    (hpost : ∀ c ∈ post, isWsChar c = true)
    (hcase : lowerChars s1 = lowerChars s2) :
    canonicalOrgName (pre ++ s1 ++ post) = canonicalOrgName s2 := by
  unfold canonicalOrgName
  rw [trim_pad s1 pre post hpre hpost]
  unfold lowerChars at hcase ⊢
  rw [← trim_map_toLower, hcase, trim_map_toLower]

/-- C1 (witness for the amended theorem): a concrete case/whitespace
variant pair canonicalizes equally. -/
theorem canonicalOrgName_case_ws_invariant_witness :
    canonicalOrgName ([' '] ++ ['J', 'I', 'E', 'C', 'E', 'P'] ++ [' ', ' ']) =
      canonicalOrgName ['j', 'i', 'e', 'c', 'e', 'p'] :=
  canonicalOrgName_case_ws_invariant ['J', 'I', 'E', 'C', 'E', 'P']
    ['j', 'i', 'e', 'c', 'e', 'p'] [' '] [' ', ' ']
    (by decide) (by decide) (by decide)

-- ---------------------------------------------------------------------
-- Organizations registry (src/unnamed/part_003 lines 304-369)
-- ---------------------------------------------------------------------

/-- An organization record as stored in `data.json` under `organizations`.
`metadata` is an opaque key-value bag; only its presence matters to the
modelled code, so it is kept as an opaque optional string.  Timestamps are
modelled as optional naturals. -/
structure Org where
  id : Str
  name : Str
  canonicalName : Str
  displayName : Str
  logoUrl : Option Str
  contactEmail : Option Str
  metadata : Option Str
  createdAt : Option Nat
  updatedAt : Option Nat
deriving DecidableEq

/-- The optional attributes accepted by `upsertOrganizationByName`
(`displayName`, `logoUrl`, `contactEmail`, `metadata`, all defaulting to
`null`). -/
structure OrgAttrs where
  displayName : Option Str
  logoUrl : Option Str
  contactEmail : Option Str
  metadata : Option Str
deriving DecidableEq

def noAttrs : OrgAttrs := ⟨none, none, none, none⟩

/-- The lookup key used by the registry:
`o.canonicalName || canonicalOrgName(o.name)` — the stored canonical name
when it is truthy, else the canonicalized display name. -/
def orgKey (o : Org) : Str :=
  if o.canonicalName = [] then canonicalOrgName o.name else o.canonicalName

/-- The in-place merge performed on an existing record by
`upsertOrganizationByName`: each provided attribute is copied only when the
existing field is falsy; `id`, `name` and `canonicalName` are never
touched.  (The `updatedAt` refresh is modelled by the caller passing
`now`.) -/
def mergeOrgAttrs (o : Org) (a : OrgAttrs) (now : Nat) : Org :=
  let o1 := match a.displayName with
    | some d => if !d.isEmpty && o.displayName.isEmpty then { o with displayName := d } else o
    | none => o
  let o2 := match a.logoUrl with
    | some u => if !u.isEmpty && !(truthyS o1.logoUrl) then { o1 with logoUrl := some u } else o1
    | none => o1
  let o3 := match a.contactEmail with
    | some e => if !e.isEmpty && !(truthyS o2.contactEmail) then { o2 with contactEmail := some e } else o2
    | none => o2
  let o4 := match a.metadata with
    | some m => if truthyS o3.metadata = false then { o3 with metadata := some m } else o3
    | none => o3
  { o4 with updatedAt := some now }

/-- Replace the first element satisfying `p` (the Lean image of a JS
in-place mutation of the object returned by `Array.prototype.find`). -/
def replaceFirst {α : Type} (p : α → Bool) (x : α) : List α → List α
  | [] => []
  | a :: as => if p a then x :: as else a :: replaceFirst p x as

/-- Embedding of `upsertOrganizationByName` (src/unnamed/part_003 lines
304-356), local-store path; the Firestore mirror write is external
best-effort and not modelled.  `freshId` stands for the `uuidv4()` call.
Returns the resulting organization (`none` models the JS `null` returned
on a falsy name) together with the updated organizations collection. -/
def upsertOrganizationByName (orgName : Str) (attrs : OrgAttrs)
    (freshId : Str) (now : Nat) (orgs : List Org) :
    Option Org × List Org :=
  if orgName = [] then (none, orgs)
  else
    let canon := canonicalOrgName orgName
    match orgs.find? (fun o => orgKey o == canon) with
    | some existing =>
      let merged := mergeOrgAttrs existing attrs now
      (some merged, replaceFirst (fun o => orgKey o == canon) merged orgs)
    | none =>
      let org : Org :=
        { id := freshId
          name := orgName
          canonicalName := canon
          displayName := orDefaultS attrs.displayName orgName
          logoUrl := optS attrs.logoUrl
          contactEmail := optS attrs.contactEmail
          metadata := attrs.metadata
          createdAt := some now
          updatedAt := none }
      (some org, org :: orgs)

/-- Embedding of the local path of `getOrgById` (src/unnamed/part_003
lines 358-369): find by `id` or by display `name`. -/
def getOrgByIdLocal (oid : Str) (orgs : List Org) : Option Org :=
  if oid = [] then none
  else orgs.find? (fun o => o.id == oid || o.name == oid)

theorem mergeOrgAttrs_id (o : Org) (a : OrgAttrs) (now : Nat) :
    (mergeOrgAttrs o a now).id = o.id := by
  unfold mergeOrgAttrs
  rcases a with ⟨d, u, e, m⟩
  cases d <;> cases u <;> cases e <;> cases m <;>
    dsimp only <;> split_ifs <;> rfl

theorem mergeOrgAttrs_key (o : Org) (a : OrgAttrs) (now : Nat) :
    orgKey (mergeOrgAttrs o a now) = orgKey o := by
  have h1 : (mergeOrgAttrs o a now).canonicalName = o.canonicalName := by
    unfold mergeOrgAttrs
    rcases a with ⟨d, u, e, m⟩
    cases d <;> cases u <;> cases e <;> cases m <;>
      dsimp only <;> split_ifs <;> rfl
  have h2 : (mergeOrgAttrs o a now).name = o.name := by
    unfold mergeOrgAttrs
    rcases a with ⟨d, u, e, m⟩
    cases d <;> cases u <;> cases e <;> cases m <;>
      dsimp only <;> split_ifs <;> rfl
  unfold orgKey
  rw [h1, h2]

theorem find?_replaceFirst {α : Type} (p : α → Bool) (x y : α)
    (l : List α) (hfind : l.find? p = some x) (hy : p y = true) :
    (replaceFirst p y l).find? p = some y := by
  induction l with
  | nil => simp at hfind
  | cons a as ih =>
    by_cases h : p a = true
    · simp [replaceFirst, h, List.find?_cons, hy]
    · have h' : p a = false := by simpa using h
      rw [List.find?_cons_of_neg _ (by simp [h'])] at hfind
      simp only [replaceFirst, h', if_false, Bool.false_eq_true]
      rw [List.find?_cons_of_neg _ (by simp [h'])]
      exact ih hfind

theorem replaceFirst_length {α : Type} (p : α → Bool) (x : α) (l : List α) :
    (replaceFirst p x l).length = l.length := by
  induction l with
  | nil => rfl
  | cons a as ih =>
    by_cases h : p a = true <;> simp [replaceFirst, h, ih]

-- ---------------------------------------------------------------------
-- C3
-- ---------------------------------------------------------------------

/-- C3: upserting an organization by the same name twice yields the same
organization id both times, for any starting store state: the second call
finds the record created (or matched) by the first via its canonical name
and does not create a new record (the collection size is unchanged by the
second call). -/
theorem upsertOrganizationByName_idempotent_id
    (orgName : Str) (a1 a2 : OrgAttrs) (id1 id2 : Str) (t1 t2 : Nat)
    (orgs : List Org) (hname : orgName ≠ []) :
    ∃ o1 orgs1 o2 orgs2,
      upsertOrganizationByName orgName a1 id1 t1 orgs = (some o1, orgs1) ∧
      upsertOrganizationByName orgName a2 id2 t2 orgs1 = (some o2, orgs2) ∧
      o2.id = o1.id ∧ orgs2.length = orgs1.length := by
  unfold upsertOrganizationByName
  simp only [if_neg hname]
  set canon := canonicalOrgName orgName with hcanon
  cases hfind : orgs.find? (fun o => orgKey o == canon) with
  | some existing =>
    -- first call merges into the existing record in place
    have hkey : (fun o => orgKey o == canon) (mergeOrgAttrs existing a1 t1) = true := by
      have h0 := List.find?_some hfind
      simpa [mergeOrgAttrs_key] using h0
    have hfind2 := find?_replaceFirst (fun o => orgKey o == canon)
      existing (mergeOrgAttrs existing a1 t1) orgs hfind hkey
    refine ⟨mergeOrgAttrs existing a1 t1,
      replaceFirst (fun o => orgKey o == canon) (mergeOrgAttrs existing a1 t1) orgs,
      mergeOrgAttrs (mergeOrgAttrs existing a1 t1) a2 t2,
      replaceFirst (fun o => orgKey o == canon)
        (mergeOrgAttrs (mergeOrgAttrs existing a1 t1) a2 t2)
        (replaceFirst (fun o => orgKey o == canon) (mergeOrgAttrs existing a1 t1) orgs),
      rfl, ?_, ?_, ?_⟩
    · rw [hfind2]
    · rw [mergeOrgAttrs_id, mergeOrgAttrs_id]
    · exact replaceFirst_length _ _ _
  | none =>
    -- first call creates a fresh record and puts it at the head
    set org1 : Org :=
      { id := id1
        name := orgName
        canonicalName := canon
        displayName := orDefaultS a1.displayName orgName
        logoUrl := optS a1.logoUrl
        contactEmail := optS a1.contactEmail
        metadata := a1.metadata
        createdAt := some t1
        updatedAt := none } with horg1
    have hkey1 : (fun o => orgKey o == canon) org1 = true := by
      simp only [horg1, orgKey]
      by_cases hc : canon = []
      · rw [if_pos hc]
        rw [hcanon] at hc ⊢
        simp [hc]
      · rw [if_neg hc]
        simp
    have hfind2 : (org1 :: orgs).find? (fun o => orgKey o == canon) = some org1 :=
      List.find?_cons_of_pos _ hkey1
    refine ⟨org1, org1 :: orgs,
      mergeOrgAttrs org1 a2 t2,
      replaceFirst (fun o => orgKey o == canon) (mergeOrgAttrs org1 a2 t2) (org1 :: orgs),
      rfl, ?_, ?_, ?_⟩
    · rw [hfind2]
    · rw [mergeOrgAttrs_id]
    · exact replaceFirst_length _ _ _

/-- C3 (witness): a concrete double-upsert of the same name on the empty
store returns the same id twice. -/
theorem upsertOrganizationByName_idempotent_id_witness :
    ∃ o1 orgs1 o2 orgs2,
      upsertOrganizationByName ['x'] noAttrs ['i', '1'] 0 [] = (some o1, orgs1) ∧
      upsertOrganizationByName ['x'] noAttrs ['i', '2'] 1 orgs1 = (some o2, orgs2) ∧
      o2.id = o1.id ∧ orgs2.length = orgs1.length :=
  upsertOrganizationByName_idempotent_id ['x'] noAttrs noAttrs
    ['i', '1'] ['i', '2'] 0 1 [] (by decide)

-- ---------------------------------------------------------------------
-- Payments, events and the local data.json document
-- ---------------------------------------------------------------------

/-- Status strings written by the server. -/
def statusPending : Str := ['p', 'e', 'n', 'd', 'i', 'n', 'g']

def statusApproved : Str := ['a', 'p', 'p', 'r', 'o', 'v', 'e', 'd']

/-- A payment record as built by `POST /api/payments` (src/unnamed/part_003
lines 1516-1545).  `amount` is the result of `parseFloat` (`none` = NaN);
optional string fields are `none` where the server stores `null`;
timestamps are naturals. -/
structure Payment where
  id : Str
  name : Str
  amount : Option ℚ
  purpose : Option Str
  org : Option Str
  orgId : Option Str
  event : Option Str
  eventId : Option Str
  reference : Option Str
  proofObjectPath : Option Str
  proofFile : Option Str
  proofObjectIsLocal : Bool
  status : Str
  createdAt : Nat
  notes : Str
  studentName : Option Str
  studentYear : Option Str
  studentCollege : Option Str
  studentDepartment : Option Str
  studentProgram : Option Str
  studentBlock : Option Str
  submittedByUid : Option Str
  submittedByEmail : Option Str
  approvedAt : Option Nat
  verifiedBy : Option Str
  rejectedAt : Option Nat
deriving DecidableEq

/-- An event record; only the fields inspected by the embedded handlers
(`id`, `name`, `org`, `orgId`, `fee`) are modelled — receiver/QR metadata
and timestamps never influence the verified routes. -/
structure Event where
  id : Str
  name : Str
  org : Option Str
  orgId : Option Str
  fee : Option ℚ
deriving DecidableEq

/-- The local `data.json` document with its five top-level collections
(`officerProfiles` and `users` are keyed objects, modelled as association
lists with opaque payloads). -/
structure DB where
  payments : List Payment
  events : List Event
  organizations : List Org
  officerProfiles : List (Str × Str)
  users : List (Str × Str)
deriving DecidableEq

def emptyDB : DB := ⟨[], [], [], [], []⟩

/-- A parsed `data.json` object in which any of the top-level collections
may be missing (legacy files). -/
structure PartialDB where
  payments : Option (List Payment)
  events : Option (List Event)
  organizations : Option (List Org)
  officerProfiles : Option (List (Str × Str))
  users : Option (List (Str × Str))
deriving DecidableEq

/-- The content of the local store file as seen by `readDB`: either it
parses to a JSON object (with possibly missing collections), or reading it
throws — `JSON.parse` fails on malformed text, or the subsequent key
accesses throw (for example on a `null` document).  Both throwing cases
are taken to `malformed`, the catch path of `readDB`. -/
inductive RawFile
  | malformed
  | parsed (pdb : PartialDB)
deriving DecidableEq

/-- Embedding of `readDB` (src/unnamed/part_003 lines 157-171): parse the
file, backfill any missing top-level collections, and on any exception
return the empty-but-valid structure.  Totality of this function is the
no-crash property: every file content yields a `DB`. -/
def readDB : RawFile → DB
  | .malformed => emptyDB
  | .parsed pdb =>
    { payments := pdb.payments.getD []
      events := pdb.events.getD []
      organizations := pdb.organizations.getD []
      officerProfiles := pdb.officerProfiles.getD []
      users := pdb.users.getD [] }

/-- Embedding of `writeDB` (src/unnamed/part_003 lines 172-180): ensure
all collections exist (a `DB` always has them) and serialize the document
back to the file. -/
def writeDB (db : DB) : RawFile :=
  .parsed ⟨some db.payments, some db.events, some db.organizations,
    some db.officerProfiles, some db.users⟩

-- ---------------------------------------------------------------------
-- C9
-- ---------------------------------------------------------------------

/-- C9: reading the local store never crashes — it is a total function of
the file content; a corrupt (unparseable) file yields the empty-but-valid
structure with every top-level collection present and empty; and a
subsequent write succeeds and round-trips: reading back what `writeDB`
wrote recovers exactly the in-memory document.  (The warning log line is
an observational side effect outside the value-level model.) -/
theorem readDB_total_corrupt_empty_write_roundtrip :
    readDB RawFile.malformed = emptyDB ∧
    (∀ db : DB, readDB (writeDB db) = db) ∧
    (∀ pdb : PartialDB, readDB (RawFile.parsed pdb) =
      { payments := pdb.payments.getD []
        events := pdb.events.getD []
        organizations := pdb.organizations.getD []
        officerProfiles := pdb.officerProfiles.getD []
        users := pdb.users.getD [] }) := by
  refine ⟨rfl, ?_, fun pdb => rfl⟩
  intro db
  cases db
  rfl

-- ---------------------------------------------------------------------
-- Approve / unapprove (src/unnamed/part_003 lines 1623-1681)
-- ---------------------------------------------------------------------

/-- Embedding of `POST /api/payments/:id/approve` (lines 1657-1681),
local-store path: find the payment by id, set `status = 'approved'` and
`approvedAt = now`, write back.  `none` models the 404 response. -/
def approvePayment (pid : Str) (now : Nat) (db : DB) :
    Option (Payment × DB) :=
  match db.payments.find? (fun p => p.id == pid) with
  | none => none
  | some p =>
    let p1 := { p with status := statusApproved, approvedAt := some now }
    some (p1, { db with
      payments := replaceFirst (fun q => q.id == pid) p1 db.payments })

/-- Embedding of `POST /api/payments/:id/unapprove` (lines 1623-1655),
local-store path: find the payment by id, set `status = 'pending'` and
delete `approvedAt`, `verifiedBy` and `rejectedAt`. -/
def unapprovePayment (pid : Str) (db : DB) : Option (Payment × DB) :=
  match db.payments.find? (fun p => p.id == pid) with
  | none => none
  | some p =>
    let p1 := { p with status := statusPending, approvedAt := none,
                       verifiedBy := none, rejectedAt := none }
    some (p1, { db with
      payments := replaceFirst (fun q => q.id == pid) p1 db.payments })

-- ---------------------------------------------------------------------
-- C8
-- ---------------------------------------------------------------------

/-- C8: for every existing payment, whatever its current status and
fields, approving and then immediately unapproving it leaves it stored
with `status = 'pending'` and `approvedAt` cleared; both the returned
record and the one stored in the resulting collection agree. -/
theorem approve_then_unapprove_pending
    (pid : Str) (now : Nat) (db : DB) (p0 : Payment)
    (hfind : db.payments.find? (fun p => p.id == pid) = some p0) :
    ∃ p1 db1 p2 db2,
      approvePayment pid now db = some (p1, db1) ∧
      unapprovePayment pid db1 = some (p2, db2) ∧
      p2.status = statusPending ∧ p2.approvedAt = none ∧ p2.id = p0.id ∧
      db2.payments.find? (fun p => p.id == pid) = some p2 := by
  have hp0 : (fun p : Payment => p.id == pid) p0 = true := by
    have h0 := List.find?_some hfind
    simpa using h0
  set p1 : Payment := { p0 with status := statusApproved, approvedAt := some now }
    with hp1def
  set db1 : DB := { db with payments := replaceFirst (fun q => q.id == pid) p1 db.payments }
    with hdb1def
  have hp1 : (fun p : Payment => p.id == pid) p1 = true := hp0
  have hfind1 : db1.payments.find? (fun p => p.id == pid) = some p1 :=
    find?_replaceFirst _ p0 p1 db.payments hfind hp1
  set p2 : Payment :=
    { p1 with
      status := statusPending
      approvedAt := none
      verifiedBy := none
      rejectedAt := none } with hp2def
  set db2 : DB := { db1 with payments := replaceFirst (fun q => q.id == pid) p2 db1.payments }
    with hdb2def
  have hp2 : (fun p : Payment => p.id == pid) p2 = true := hp0
  refine ⟨p1, db1, p2, db2, ?_, ?_, rfl, rfl, rfl, ?_⟩
  · unfold approvePayment
    rw [hfind]
  · unfold unapprovePayment
    rw [hfind1]
  · exact find?_replaceFirst _ p1 p2 _ hfind1 hp2

/-- A sample payment that is already approved, exercising the
`approve`-from-`approved` path of the round trip. -/
def c8samplePayment : Payment :=
  { id := ['p', '1'], name := ['x'], amount := some 5, purpose := none,
    org := none, orgId := none, event := none, eventId := none,
    reference := none, proofObjectPath := none, proofFile := none,
    proofObjectIsLocal := false, status := statusApproved, createdAt := 0,
    notes := [], studentName := none, studentYear := none,
    studentCollege := none, studentDepartment := none,
    studentProgram := none, studentBlock := none, submittedByUid := none,
    submittedByEmail := none, approvedAt := some 3, verifiedBy := none,
    rejectedAt := none }

def c8sampleDB : DB := { emptyDB with payments := [c8samplePayment] }

/-- C8 (witness): a concrete one-payment store, approved then unapproved,
ends pending with no approval timestamp. -/
theorem approve_then_unapprove_pending_witness :
    ∃ p1 db1 p2 db2,
      approvePayment ['p', '1'] 7 c8sampleDB = some (p1, db1) ∧
      unapprovePayment ['p', '1'] db1 = some (p2, db2) ∧
      p2.status = statusPending ∧ p2.approvedAt = none ∧
      p2.id = c8samplePayment.id ∧
      db2.payments.find? (fun p => p.id == ['p', '1']) = some p2 :=
  approve_then_unapprove_pending ['p', '1'] 7 c8sampleDB c8samplePayment
    (by decide)

-- ---------------------------------------------------------------------
-- GET /api/payments (src/unnamed/part_003 lines 1237-1369), local path
-- ---------------------------------------------------------------------

/-- Lexicographic comparison of strings by code unit, the default
`Array.prototype.sort` comparison for the BMP characters this data
contains. -/
def strLe : Str → Str → Bool
  | [], _ => true
  | _ :: _, [] => false
  | a :: as, b :: bs =>
    if a.toNat < b.toNat then true
    else if b.toNat < a.toNat then false
    else strLe as bs

def insertStr (x : Str) : List Str → List Str
  | [] => [x]
  | y :: ys => if strLe x y then x :: y :: ys else y :: insertStr x ys

/-- Model of `Array.from(set).sort()`. -/
def sortStrs (l : List Str) : List Str := l.foldr insertStr []

/-- Model of collecting values into a `Set` (first-occurrence order). -/
def dedupeKeepFirst {α : Type} [DecidableEq α] : List α → List α
  | [] => []
  | x :: xs => x :: (dedupeKeepFirst xs).filter (fun y => y != x)

/-- The aggregate figures returned for a filtered payments query
(lines 1345-1353). -/
structure Totals where
  totalCount : Nat
  approvedCount : Nat
  totalAmount : ℚ
deriving DecidableEq

/-- The distinct years/blocks present across the event-scoped payments
(lines 1282-1293). -/
structure AvailableFilters where
  years : List Str
  blocks : List Str
deriving DecidableEq

/-- The two response shapes of GET /api/payments: the legacy plain array
when no filter parameter is supplied, and the richer object shape
otherwise. -/
inductive PaymentsResponse
  | legacy (payments : List Payment)
  | filtered (payments : List Payment) (totals : Totals)
      (availableFilters : AvailableFilters)
deriving DecidableEq

def paymentsOf : PaymentsResponse → List Payment
  | .legacy ps => ps
  | .filtered ps _ _ => ps

def totalsOf : PaymentsResponse → Option Totals
  | .legacy _ => none
  | .filtered _ t _ => some t

/-- The per-row approval test of the totals loop (line 1350):
`p.status && String(p.status).toLowerCase() === 'approved'`. -/
def isApprovedRow (p : Payment) : Bool :=
  !p.status.isEmpty && (lowerChars p.status == statusApproved)

/-- The per-row amount of the totals loop (line 1351):
`parseFloat(p.amount || 0) || 0` — NaN and missing amounts count as 0. -/
def amountVal (p : Payment) : ℚ := (p.amount).getD 0

/-- The totals computation over the filtered set (lines 1345-1353):
`totalCount` is the filtered length; one `forEach` pass accumulates
`approvedCount` and `totalAmount`. -/
def computeTotals (filtered : List Payment) : Totals :=
  let acc := filtered.foldl
    (fun (ac : Nat × ℚ) p =>
      (if isApprovedRow p then ac.1 + 1 else ac.1, ac.2 + amountVal p))
    (0, 0)
  ⟨filtered.length, acc.1, acc.2⟩

/-- The per-payment year/block filter test (lines 1317-1329): when a
normalized filter set is nonempty the payment's normalized value must be
a member.  (The legacy `p.year`/`p.block` aliases of records predating the
student-metadata fields are collapsed into the modelled fields.) -/
def paymentPassesFilters (yearsN blocksN : List Str) (p : Payment) : Bool :=
  (yearsN.isEmpty || yearsN.contains (normalizeFilterValue ((p.studentYear).getD []))) &&
  (blocksN.isEmpty || blocksN.contains (normalizeFilterValue ((p.studentBlock).getD [])))

/-- Embedding of the GET /api/payments handler (lines 1237-1369), local
path (no Firestore; the signed-URL injection into `proofFile` is an
external Supabase call and leaves the stored records unchanged).  `years`
and `blocks` are the query lists after `toArrayOrNull` (absent = `[]`). -/
def listPaymentsLocal (qEventId : Option Str) (years blocks : List Str)
    (db : DB) : PaymentsResponse :=
  let eventId := optS qEventId
  let hasFilter := eventId.isSome || !years.isEmpty || !blocks.isEmpty
  let paymentsSource :=
    match eventId with
    | some eid => db.payments.filter
        (fun p => p.eventId == some eid || p.event == some eid)
    | none => db.payments
  let availableFilters : AvailableFilters :=
    ⟨sortStrs (dedupeKeepFirst (paymentsSource.filterMap
        (fun p => if truthyS p.studentYear
          then some (trimChars ((p.studentYear).getD [])) else none))),
     sortStrs (dedupeKeepFirst (paymentsSource.filterMap
        (fun p => if truthyS p.studentBlock
          then some (trimChars ((p.studentBlock).getD [])) else none)))⟩
  if hasFilter = false then .legacy paymentsSource
  else
    let yearsN := years.map normalizeFilterValue
    let blocksN := blocks.map normalizeFilterValue
    let filtered := paymentsSource.filter (paymentPassesFilters yearsN blocksN)
    .filtered filtered (computeTotals filtered) availableFilters

-- ---------------------------------------------------------------------
-- Officer-dashboard stat cards (src/public/officer-dashboard.js
-- lines 1127-1171)
-- ---------------------------------------------------------------------

/-- The three summary stat cards of the officer dashboard. -/
structure DisplayedStats where
  paidCount : Nat
  approvedCount : Nat
  receivedTotal : ℚ
deriving DecidableEq

/-- The submitter deduplication key of the client stats loop (line 1143):
an identity string when one is available, else the reference/amount
composite.  (Snake-case alias fields are collapsed into the modelled
fields.) -/
inductive ClientKey
  | ident (s : Str)
  | composite (ref : Str) (amt : Option ℚ)
deriving DecidableEq

def clientKey (p : Payment) : ClientKey :=
  match optS p.submittedByUid with
  | some u => .ident u
  | none =>
    match optS p.submittedByEmail with
    | some e => .ident e
    | none =>
      match optS p.studentName with
      | some n => .ident n
      | none => .composite ((p.reference).getD []) p.amount

/-- The client-side approval test (line 1145):
`String(p.status || '').toLowerCase() === 'approved'`. -/
def clientApproved (p : Payment) : Bool :=
  lowerChars p.status == statusApproved

/-- Client-side stats computed from a payment array (lines 1138-1153):
distinct submitters, approved rows, sum of approved amounts. -/
def computeClientStats (arr : List Payment) : DisplayedStats :=
  { paidCount := (dedupeKeepFirst (arr.map clientKey)).length
    approvedCount := (arr.filter clientApproved).length
    receivedTotal := ((arr.filter clientApproved).map amountVal).sum }

/-- Stats taken from a server `totals` object (lines 1132-1136); a zero
`totalCount` is falsy in JS, so the array length is used instead. -/
def statsFromTotals (t : Totals) (arr : List Payment) : DisplayedStats :=
  { paidCount := if t.totalCount = 0 then arr.length else t.totalCount
    approvedCount := t.approvedCount
    receivedTotal := t.totalAmount }

/-- Embedding of the stats half of `renderPaymentsAndStatsFromArray`
(lines 1127-1155): the stat cards are rewritten only when
`updateStats === true`; every call site with active year/block filters
passes `false`, leaving the previously displayed (baseline) figures in
place. -/
def newDisplayedStats (updateStats : Bool) (totals : Option Totals)
    (arr : List Payment) (prev : DisplayedStats) : DisplayedStats :=
  if updateStats then
    match totals with
    | some t => statsFromTotals t arr
    | none => computeClientStats arr
  else prev

-- ---------------------------------------------------------------------
-- GET /api/events (src/unnamed/part_003 lines 867-892), local path
-- ---------------------------------------------------------------------

/-- Embedding of the local filter path of GET /api/events (lines
882-887): an `orgId` filter and an `org` display-name filter are each
applied when truthy — both of them when both are supplied. -/
def listEventsLocal (qOrg qOrgId : Option Str) (events : List Event) :
    List Event :=
  let orgFilter := optS qOrg
  let orgIdFilter := optS qOrgId
  let evs1 :=
    match orgIdFilter with
    | some oid => events.filter (fun ev => ev.orgId == some oid)
    | none => events
  match orgFilter with
  | some onm => evs1.filter (fun ev => ev.org == some onm)
  | none => evs1

-- ---------------------------------------------------------------------
-- C7
-- ---------------------------------------------------------------------

def c7event : Event :=
  { id := ['E', '9'], name := ['n'], org := some ['B'],
    orgId := some ['O', '1'], fee := none }

/-- C7 (counterexample): the claim says an `org` display-name filter is
ignored whenever an `orgId` filter value is supplied.  On the local path
the handler applies both filters conjunctively: an event whose `orgId`
matches the query but whose display name differs from the `org` parameter
is dropped, while the same query without the `org` parameter returns
it. -/
theorem listEventsLocal_combines_filters :
    listEventsLocal (some ['A']) (some ['O', '1']) [c7event] = [] ∧
    listEventsLocal none (some ['O', '1']) [c7event] = [c7event] ∧
    c7event.orgId = some ['O', '1'] := by
  refine ⟨by decide, by decide, rfl⟩

theorem filter_filter_and {α : Type} (p q : α → Bool) (l : List α) :
    (l.filter p).filter q = l.filter (fun a => p a && q a) := by
  induction l with
  | nil => rfl
  | cons a as ih =>
    by_cases hp : p a = true
    · by_cases hq : q a = true <;> simp [List.filter_cons, hp, hq, ih]
    · simp [List.filter_cons, hp, ih]

/-- C7 (amended): on the local path of the events listing, the `orgId`
filter (exact `orgId` equality) and the `org` filter (exact display-name
equality) are each applied whenever their value is truthy; when both are
supplied the result is their conjunction, not the `orgId` filter alone. -/
theorem listEventsLocal_filter_conjunction (qOrg qOrgId : Option Str)
    (events : List Event) :
    listEventsLocal qOrg qOrgId events = events.filter (fun ev =>
      (match optS qOrgId with
       | some oid => ev.orgId == some oid
       | none => true) &&
      (match optS qOrg with
       | some onm => ev.org == some onm
       | none => true)) := by
  unfold listEventsLocal
  cases h1 : optS qOrgId with
  | none =>
    cases h2 : optS qOrg with
    | none =>
      simp
    | some onm =>
      simp
  | some oid =>
    cases h2 : optS qOrg with
    | none =>
      simp
    | some onm =>
      simp only
      rw [filter_filter_and]

-- ---------------------------------------------------------------------
-- C6
-- ---------------------------------------------------------------------

/-- A neutral pending payment used to build concrete stores. -/
def basePayment : Payment :=
  { id := [], name := ['x'], amount := some 100, purpose := none,
    org := none, orgId := none, event := none, eventId := none,
    reference := none, proofObjectPath := none, proofFile := none,
    proofObjectIsLocal := false, status := statusPending, createdAt := 0,
    notes := [], studentName := none, studentYear := none,
    studentCollege := none, studentDepartment := none,
    studentProgram := none, studentBlock := none, submittedByUid := none,
    submittedByEmail := none, approvedAt := none, verifiedBy := none,
    rejectedAt := none }

def eOne : Str := ['E', '1']

def eTwo : Str := ['E', '2']

def c6p1 : Payment := { basePayment with id := ['a'], eventId := some eOne }

def c6p2 : Payment :=
  { basePayment with id := ['b'], eventId := some eTwo, event := some eOne }

def c6db : DB := { emptyDB with payments := [c6p1, c6p2] }

/-- C6 (counterexample): the eventId filter also admits any payment whose
`event` display-name field equals the queried id string (the legacy
fallback `p.event === eventId`), so a payment created with a different
`eventId` can appear in the result: here `c6p2` has `eventId = E2` yet is
returned by `list({eventId: E1})` because its `event` field is the string
`E1`. -/
theorem listPaymentsLocal_eventId_leak :
    paymentsOf (listPaymentsLocal (some eOne) [] [] c6db) = [c6p1, c6p2] ∧
    c6p2.eventId = some eTwo ∧ eTwo ≠ eOne := by
  refine ⟨by decide, rfl, by decide⟩

theorem optS_some_of_ne_nil {s : Str} (h : s ≠ []) :
    optS (some s) = some s := by
  cases s with
  | nil => exact absurd rfl h
  | cons c cs => rfl

/-- C6 (amended): for a nonempty `eventId` filter and no year/block
filters, the local payments listing returns exactly the payments whose
`eventId` equals the filter value or whose `event` display-name field
equals the filter string (the legacy fallback), and the returned
`totals.totalCount` equals the length of the returned payments array. -/
theorem listPaymentsLocal_eventId_exact (eid : Str) (db : DB)
    (heid : eid ≠ []) :
    ∃ t af, listPaymentsLocal (some eid) [] [] db =
      PaymentsResponse.filtered
        (db.payments.filter (fun p => p.eventId == some eid || p.event == some eid))
        t af ∧
      t.totalCount =
        (db.payments.filter
          (fun p => p.eventId == some eid || p.event == some eid)).length := by
  unfold listPaymentsLocal
  rw [optS_some_of_ne_nil heid]
  simp only [Option.isSome_some, Bool.true_or, List.isEmpty_nil,
    Bool.not_true, Bool.or_false, List.map_nil]
  rw [if_neg (by decide : ¬ (true = false))]
  have hpass : List.filter (paymentPassesFilters [] [])
      (List.filter (fun p => p.eventId == some eid || p.event == some eid) db.payments) =
      List.filter (fun p => p.eventId == some eid || p.event == some eid) db.payments :=
    List.filter_eq_self.mpr (fun p _ => rfl)
  rw [hpass]
  exact ⟨_, _, rfl, rfl⟩

/-- C6 (witness for the amended theorem): the amended description holds on
the concrete two-payment store. -/
theorem listPaymentsLocal_eventId_exact_witness :
    ∃ t af, listPaymentsLocal (some eOne) [] [] c6db =
      PaymentsResponse.filtered
        (c6db.payments.filter (fun p => p.eventId == some eOne || p.event == some eOne))
        t af ∧
      t.totalCount =
        (c6db.payments.filter
          (fun p => p.eventId == some eOne || p.event == some eOne)).length :=
  listPaymentsLocal_eventId_exact eOne c6db (by decide)

-- ---------------------------------------------------------------------
-- C2
-- ---------------------------------------------------------------------

def yr2 : Str := ['2', 'n', 'd', ' ', 'Y', 'e', 'a', 'r']

def yr1 : Str := ['1', 's', 't', ' ', 'Y', 'e', 'a', 'r']

def c2pa : Payment :=
  { basePayment with id := ['a', '1'], eventId := some eOne, studentYear := some yr2 }

def c2pb : Payment :=
  { basePayment with id := ['a', '2'], eventId := some eOne, studentYear := some yr2 }

def c2pc : Payment :=
  { basePayment with id := ['a', '3'], eventId := some eOne, studentYear := some yr2 }

def c2pd : Payment :=
  { basePayment with id := ['a', '4'], eventId := some eOne, studentYear := some yr1 }

def c2pe : Payment :=
  { basePayment with id := ['a', '5'], eventId := some eOne, studentYear := some yr1 }

def c2db : DB := { emptyDB with payments := [c2pa, c2pb, c2pc, c2pd, c2pe] }

/-- C2 (counterexample): on the Scenario-C population — five payments for
event E1, three of them with studentYear `2nd Year` — the filtered query
returns `totals.totalCount = 3`, the size of the filtered subset, while
the unfiltered baseline population has 5 payments: the returned totals are
computed over the filtered subset, not pinned to the baseline. -/
theorem listPaymentsLocal_totals_not_pinned :
    paymentsOf (listPaymentsLocal (some eOne) [yr2] [] c2db) =
      [c2pa, c2pb, c2pc] ∧
    (totalsOf (listPaymentsLocal (some eOne) [yr2] [] c2db)).map
      Totals.totalCount = some 3 ∧
    c2db.payments.length = 5 ∧ (3 : Nat) ≠ 5 := by
  refine ⟨by decide, by decide, rfl, by decide⟩

theorem computeTotals_foldl (l : List Payment) (n : Nat) (q : ℚ) :
    l.foldl
      (fun (ac : Nat × ℚ) p =>
        (if isApprovedRow p then ac.1 + 1 else ac.1, ac.2 + amountVal p))
      (n, q) =
    (n + (l.filter isApprovedRow).length, q + (l.map amountVal).sum) := by
  induction l generalizing n q with
  | nil => simp
  | cons p ps ih =>
    by_cases h : isApprovedRow p = true
    · simp only [List.foldl_cons, h, if_true, ih, List.filter_cons,
        List.map_cons, List.sum_cons, List.length_cons]
      refine congrArg₂ Prod.mk (by omega) (by ring)
    · simp only [List.foldl_cons, h, if_false, ih, List.filter_cons,
        List.map_cons, List.sum_cons, Bool.false_eq_true]
      refine congrArg₂ Prod.mk (by rfl) (by ring)

theorem computeTotals_spec (l : List Payment) :
    computeTotals l =
      ⟨l.length, (l.filter isApprovedRow).length, (l.map amountVal).sum⟩ := by
  unfold computeTotals
  rw [computeTotals_foldl]
  simp

/-- C2 (amended): whenever the payments listing takes the filtered branch
(any filter parameter supplied), the returned totals are computed over the
filtered subset — `totalCount` is its length, `approvedCount` counts its
approved rows, `totalAmount` sums its amounts; the baseline headline
figures are preserved only client-side, because the dashboard passes
`updateStats = false` while filters are active and so leaves the
previously rendered stat cards untouched. -/
theorem listPaymentsLocal_totals_over_filtered
    (qEventId : Option Str) (years blocks : List Str) (db : DB)
    (ps : List Payment) (t : Totals) (af : AvailableFilters)
    (h : listPaymentsLocal qEventId years blocks db =
      PaymentsResponse.filtered ps t af) :
    t.totalCount = ps.length ∧
    t.approvedCount = (ps.filter isApprovedRow).length ∧
    t.totalAmount = (ps.map amountVal).sum ∧
    (∀ (prev : DisplayedStats) (totals : Option Totals) (arr : List Payment),
      newDisplayedStats false totals arr prev = prev) := by
  simp only [listPaymentsLocal] at h
  split at h
  · exact PaymentsResponse.noConfusion h
  · rw [PaymentsResponse.filtered.injEq] at h
    obtain ⟨hps, ht, _⟩ := h
    subst hps
    rw [← ht, computeTotals_spec]
    exact ⟨rfl, rfl, rfl, fun prev totals arr => rfl⟩

/-- C2 (witness for the amended theorem): the filtered Scenario-C query
returns a `totalCount` equal to the filtered array length. -/
theorem listPaymentsLocal_totals_over_filtered_witness :
    (computeTotals [c2pa, c2pb, c2pc]).totalCount =
      [c2pa, c2pb, c2pc].length :=
  (listPaymentsLocal_totals_over_filtered (some eOne) [yr2] [] c2db
    [c2pa, c2pb, c2pc] (computeTotals [c2pa, c2pb, c2pc])
    ⟨[yr1, yr2], []⟩ (by rfl)).1

-- ---------------------------------------------------------------------
-- POST /api/payments (src/unnamed/part_003 lines 1420-1570), local path
-- ---------------------------------------------------------------------

def isDigitChar (c : Char) : Bool := 48 ≤ c.toNat && c.toNat ≤ 57

def digitsToNat (ds : Str) : Nat :=
  ds.foldl (fun acc c => acc * 10 + (c.toNat - 48)) 0

/-- Model of JavaScript `parseFloat` on the decimal forms this intake
receives: optional leading whitespace, optional sign, digits with an
optional fractional part; when no digit can be read the result is NaN
(`none`).  (Exponent notation and `Infinity`, which no caller produces,
are outside the model.) -/
def parseFloatJS (s : Str) : Option ℚ :=
  let s1 := s.dropWhile isWsChar
  let signAndRest : ℚ × Str :=
    match s1 with
    | '-' :: r => (-1, r)
    | '+' :: r => (1, r)
    | _ => (1, s1)
  let s2 := signAndRest.2
  let intPart := s2.takeWhile isDigitChar
  let rest := s2.dropWhile isDigitChar
  let fracPart :=
    match rest with
    | '.' :: r => r.takeWhile isDigitChar
    | _ => []
  if intPart.isEmpty && fracPart.isEmpty then none
  else some (signAndRest.1 *
    ((digitsToNat intPart : ℚ) + (digitsToNat fracPart : ℚ) / (10 : ℚ) ^ fracPart.length))

/-- The identity asserted by the external auth layer
(`req.firebaseUser`). -/
structure FUser where
  uid : Str
  email : Option Str
  name : Option Str
deriving DecidableEq

/-- The multipart body of a payment submission; each field is the
alias-resolved value the handler reads from `req.body` (`none` = absent),
and `hasFile` tells whether a `proof` file part was attached. -/
structure SubmitReq where
  name : Option Str
  amount : Option Str
  purpose : Option Str
  reference : Option Str
  org : Option Str
  orgId : Option Str
  event : Option Str
  eventId : Option Str
  studentName : Option Str
  studentYear : Option Str
  studentCollege : Option Str
  studentDepartment : Option Str
  studentProgram : Option Str
  studentBlock : Option Str
  notes : Option Str
  submittedByEmail : Option Str
  hasFile : Bool
deriving DecidableEq

/-- The outcome of the external object-store calls during one submission:
whether Supabase is configured, whether the upload succeeds, whether a
signed (or public) URL can be minted, and the path/URL values those calls
return. -/
structure Env where
  supabaseConfigured : Bool
  uploadOk : Bool
  signedUrlOk : Bool
  cloudPathUsed : Str
  signedUrl : Str
deriving DecidableEq

/-- Proof upload (lines 1472-1504): try Supabase when configured, then
fall back to a local-disk write under a fresh filename whenever no usable
URL was produced — note the fallback overwrites `storedPath` with the
local filename.  Returns `(storedPath, proofUrl)`; the local URL is
modelled by the filename (the host prefix is constant). -/
def proofStorage (hasFile : Bool) (env : Env) (freshUploadName : Str) :
    Option Str × Option Str :=
  let uploaded : Option Str × Option Str :=
    if hasFile && env.supabaseConfigured then
      if env.uploadOk then
        (some env.cloudPathUsed,
         if env.signedUrlOk then some env.signedUrl else none)
      else (none, none)
    else (none, none)
  if uploaded.2.isNone && hasFile then (some freshUploadName, some freshUploadName)
  else uploaded

/-- Org display-name resolution (lines 1443-1453): only when an `orgId`
was supplied and no `org` name was, look the organization up (by id or
name) and take its display name when that is truthy. -/
def resolveOrgName (org0 orgId0 : Option Str) (orgs : List Org) :
    Option Str :=
  match org0, orgId0 with
  | none, some oid =>
    (match getOrgByIdLocal oid orgs with
     | some o => if o.name.isEmpty then none else some o.name
     | none => none)
  | o, _ => o

/-- Event display-name resolution (lines 1455-1470): only when an
`eventId` was supplied and no `event` name was, look the event up by id
and take its name when that is truthy. -/
def resolveEventName (event0 eventId0 : Option Str) (events : List Event) :
    Option Str :=
  match event0, eventId0 with
  | none, some eid =>
    (match events.find? (fun e => e.id == eid) with
     | some ev => if ev.name.isEmpty then none else some ev.name
     | none => none)
  | e, _ => e

def validationErrMsg : Str :=
  ['n', 'a', 'm', 'e', ' ', 'a', 'n', 'd', ' ', 'a', 'm', 'o', 'u', 'n', 't',
   ' ', 'a', 'r', 'e', ' ', 'r', 'e', 'q', 'u', 'i', 'r', 'e', 'd']

/-- Embedding of the POST /api/payments handler (lines 1420-1570), local
path (the Firestore mirror write is external best-effort).  `freshId` and
`freshUploadName` stand for the two `uuidv4()` draws; the pair returned is
the HTTP outcome (400 with the validation message, or the created
payment) together with the resulting store. -/
def postPayment (req : SubmitReq) (fu : Option FUser) (env : Env)
    (freshId freshUploadName : Str) (now : Nat) (db : DB) :
    Except Str Payment × DB :=
  if !truthyS req.name || !truthyS req.amount then
    (.error validationErrMsg, db)
  else
    let orgIdFromClient := optS req.orgId
    let eventIdFromClient := optS req.eventId
    let org1 := resolveOrgName (optS req.org) orgIdFromClient db.organizations
    let event1 := resolveEventName (optS req.event) eventIdFromClient db.events
    let sp := proofStorage req.hasFile env freshUploadName
    let resolved0 : Option Str :=
      match req.studentName with
      | some s => if (trimChars s).isEmpty then none else some (trimChars s)
      | none => none
    let resolvedStudentName : Option Str :=
      match resolved0, fu with
      | none, some u => optS u.name
      | r, _ => r
    let submittedEmail : Option Str :=
      match optS req.submittedByEmail, fu with
      | none, some u => optS u.email
      | s, _ => s
    let payment : Payment :=
      { id := freshId
        name := req.name.getD []
        amount := parseFloatJS (req.amount.getD [])
        purpose := optS req.purpose
        org := org1
        orgId := orgIdFromClient
        event := event1
        eventId := eventIdFromClient
        reference := optS req.reference
        proofObjectPath := sp.1
        proofFile := sp.2
        proofObjectIsLocal := sp.1.isSome && !env.supabaseConfigured
        status := statusPending
        createdAt := now
        notes := req.notes.getD []
        studentName := resolvedStudentName
        studentYear := optS req.studentYear
        studentCollege := optS req.studentCollege
        studentDepartment := optS req.studentDepartment
        studentProgram := optS req.studentProgram
        studentBlock := optS req.studentBlock
        submittedByUid := fu.map FUser.uid
        submittedByEmail := submittedEmail
        approvedAt := none
        verifiedBy := none
        rejectedAt := none }
    (.ok payment, { db with payments := payment :: db.payments })

/-- Whether an intake outcome is a success response. -/
def postOk (r : Except Str Payment × DB) : Bool :=
  match r.1 with
  | .ok _ => true
  | .error _ => false

/-- Projection of a successful intake outcome (default on error). -/
def okPaymentOf (e : Except Str Payment) (d : Payment) : Payment :=
  match e with
  | .ok p => p
  | .error _ => d

-- ---------------------------------------------------------------------
-- C4
-- ---------------------------------------------------------------------

/-- An environment with no cloud backends configured. -/
def envNone : Env := ⟨false, false, false, [], []⟩

def emptyReq : SubmitReq :=
  { name := none, amount := none, purpose := none, reference := none,
    org := none, orgId := none, event := none, eventId := none,
    studentName := none, studentYear := none, studentCollege := none,
    studentDepartment := none, studentProgram := none, studentBlock := none,
    notes := none, submittedByEmail := none, hasFile := false }

def c4reqNaN : SubmitReq :=
  { emptyReq with name := some ['x'], amount := some ['a', 'b', 'c'] }

def c4reqNeg : SubmitReq :=
  { emptyReq with name := some ['x'], amount := some ['-', '5'] }

theorem parseFloatJS_neg_five : parseFloatJS ['-', '5'] = some (-5) := by
  simp [parseFloatJS, digitsToNat, List.takeWhile, List.dropWhile,
    isDigitChar, isWsChar]

/-- C4 (counterexample): the intake accepts and persists submissions whose
`amount` is not a positive number.  With `amount = "abc"` validation
passes (the string is truthy) and a payment with `amount = NaN` is
persisted; with `amount = "-5"` a payment with a negative amount is
persisted.  The claim's numeric/positivity validation does not exist in
the handler. -/
theorem postPayment_no_numeric_validation :
    postOk (postPayment c4reqNaN none envNone ['i'] ['f'] 0 emptyDB) = true ∧
    ((postPayment c4reqNaN none envNone ['i'] ['f'] 0 emptyDB).2.payments.head?).map
      Payment.amount = some none ∧
    (postPayment c4reqNaN none envNone ['i'] ['f'] 0 emptyDB).2.payments.length = 1 ∧
    postOk (postPayment c4reqNeg none envNone ['i'] ['f'] 0 emptyDB) = true ∧
    ((postPayment c4reqNeg none envNone ['i'] ['f'] 0 emptyDB).2.payments.head?).map
      Payment.amount = some (some (-5)) := by
  refine ⟨by decide, by decide, by decide, by decide, ?_⟩
  show some (parseFloatJS ['-', '5']) = some (some (-5))
  rw [parseFloatJS_neg_five]

/-- C4 (amended): the intake validates only the presence (truthiness) of
`name` and `amount`.  When either is missing the submission is rejected
with the 400 validation message and the store is unchanged — nothing is
persisted, fully or partially.  When both are present the submission is
always accepted: exactly one record is prepended, carrying
`amount = parseFloat(amount)` with no numeric or positivity check, and
`status = 'pending'`. -/
theorem postPayment_presence_only_validation
    (req : SubmitReq) (fu : Option FUser) (env : Env)
    (pid fn : Str) (now : Nat) (db : DB) :
    ((truthyS req.name = false ∨ truthyS req.amount = false) →
      postPayment req fu env pid fn now db = (.error validationErrMsg, db)) ∧
    (truthyS req.name = true → truthyS req.amount = true →
      ∃ p, (postPayment req fu env pid fn now db).1 = .ok p ∧
        (postPayment req fu env pid fn now db).2.payments = p :: db.payments ∧
        p.amount = parseFloatJS (req.amount.getD []) ∧
        p.status = statusPending) := by
  constructor
  · intro h
    unfold postPayment
    rcases h with h | h <;> simp [h]
  · intro h1 h2
    unfold postPayment
    simp only [h1, h2, Bool.not_true, Bool.or_self, Bool.false_eq_true,
      if_false]
    exact ⟨_, rfl, rfl, rfl, rfl⟩

/-- C4 (witness for the amended theorem): a concrete valid submission is
accepted. -/
theorem postPayment_presence_only_validation_witness :
    postOk (postPayment c4reqNaN none envNone ['i'] ['f'] 0 emptyDB) = true := by
  obtain ⟨p, h1, -, -, -⟩ :=
    (postPayment_presence_only_validation c4reqNaN none envNone
      ['i'] ['f'] 0 emptyDB).2 rfl rfl
  simp [postOk, h1]

-- ---------------------------------------------------------------------
-- C5
-- ---------------------------------------------------------------------

def c5org : Org :=
  { id := ['O', '1'], name := ['F', 'o', 'o'],
    canonicalName := ['f', 'o', 'o'], displayName := ['F', 'o', 'o'],
    logoUrl := none, contactEmail := none, metadata := none,
    createdAt := none, updatedAt := none }

def c5db : DB := { emptyDB with organizations := [c5org] }

def c5req : SubmitReq :=
  { emptyReq with
    name := some ['x']
    amount := some ['5', '0', '0']
    org := some ['F', 'o', 'o'] }

/-- C5 (counterexample): a submission supplying only the `org` member of
the orgId/org pair is persisted with `orgId = null` even though an
organization with exactly that display name exists in the registry: the
name-to-id direction of the claimed backfill does not exist in the
handler. -/
theorem postPayment_no_orgId_backfill :
    postOk (postPayment c5req none envNone ['i'] ['f'] 0 c5db) = true ∧
    ((postPayment c5req none envNone ['i'] ['f'] 0 c5db).2.payments.head?).map
      Payment.orgId = some none ∧
    ((postPayment c5req none envNone ['i'] ['f'] 0 c5db).2.payments.head?).map
      Payment.org = some (some ['F', 'o', 'o']) ∧
    (c5db.organizations.find? (fun o => o.name == ['F', 'o', 'o'])) =
      some c5org := by
  refine ⟨by decide, by decide, by decide, by decide⟩

/-- C5 (amended): the intake backfills only the display-name direction:
the persisted `orgId`/`eventId` are exactly the client-supplied ids (or
null), never resolved from the supplied names, while the persisted
`org`/`event` names are the supplied names or, when only the id member
was supplied, the display name found by the id lookup (left null when the
lookup fails). -/
theorem postPayment_id_to_name_backfill_only
    (req : SubmitReq) (fu : Option FUser) (env : Env)
    (pid fn : Str) (now : Nat) (db : DB)
    (h1 : truthyS req.name = true) (h2 : truthyS req.amount = true) :
    ∃ p, (postPayment req fu env pid fn now db).1 = .ok p ∧
      p.orgId = optS req.orgId ∧
      p.eventId = optS req.eventId ∧
      p.org = resolveOrgName (optS req.org) (optS req.orgId) db.organizations ∧
      p.event = resolveEventName (optS req.event) (optS req.eventId) db.events := by
  unfold postPayment
  simp only [h1, h2, Bool.not_true, Bool.or_self, Bool.false_eq_true, if_false]
  exact ⟨_, rfl, rfl, rfl, rfl, rfl⟩

/-- C5 (witness for the amended theorem): on the concrete name-only
submission the persisted orgId is the client-supplied one, i.e. null. -/
theorem postPayment_id_to_name_backfill_only_witness :
    (okPaymentOf (postPayment c5req none envNone ['i'] ['f'] 0 c5db).1
      basePayment).orgId = none := by
  obtain ⟨p, h0, h, -, -, -⟩ :=
    postPayment_id_to_name_backfill_only c5req none envNone
      ['i'] ['f'] 0 c5db rfl rfl
  have hq : okPaymentOf (postPayment c5req none envNone ['i'] ['f'] 0 c5db).1
      basePayment = p := by
    rw [h0]
    rfl
  rw [hq, h]
  decide

-- ---------------------------------------------------------------------
-- C10
-- ---------------------------------------------------------------------

theorem proofStorage_isLocal_flag (hasFile : Bool) (env : Env) (fn : Str) :
    (((proofStorage hasFile env fn).1.isSome && !env.supabaseConfigured) = true ↔
      (proofStorage hasFile env fn).1 ≠ none ∧ env.supabaseConfigured = false) := by
  cases hsc : env.supabaseConfigured <;>
    cases hsp : (proofStorage hasFile env fn).1 <;> simp

/-- C10: the persisted `proofObjectIsLocal` flag is
`storedPath && !supabase`: whenever the cloud object store is configured
the flag is false — including the edge case where the upload fails and
the proof bytes are written to local disk as the fallback (third
conjunct: the stored path is then the local filename yet the flag stays
false) — and the flag is true exactly when a proof was stored with no
cloud object store configured. -/
theorem postPayment_proofObjectIsLocal
    (req : SubmitReq) (fu : Option FUser) (env : Env)
    (pid fn : Str) (now : Nat) (db : DB) (p : Payment)
    (h : (postPayment req fu env pid fn now db).1 = .ok p) :
    (env.supabaseConfigured = true → p.proofObjectIsLocal = false) ∧
    (p.proofObjectIsLocal = true ↔
      p.proofObjectPath ≠ none ∧ env.supabaseConfigured = false) ∧
    (req.hasFile = true → env.supabaseConfigured = true → env.uploadOk = false →
      p.proofObjectPath = some fn ∧ p.proofObjectIsLocal = false) := by
  unfold postPayment at h
  split at h
  · exact Except.noConfusion h
  · rw [Except.ok.injEq] at h
    subst h
    refine ⟨?_, ?_, ?_⟩
    · intro hsc
      simp [hsc]
    · exact proofStorage_isLocal_flag req.hasFile env fn
    · intro hf hsc hup
      simp [proofStorage, hf, hsc, hup]

def c10env : Env := ⟨true, false, false, ['c'], ['u']⟩

def c10req : SubmitReq :=
  { emptyReq with name := some ['x'], amount := some ['1'], hasFile := true }

def c10pay : Payment :=
  okPaymentOf (postPayment c10req none c10env ['i'] ['f'] 0 emptyDB).1 basePayment

/-- C10 (witness): with the cloud store configured and the upload
failing, the persisted payment stores the local fallback filename with
`proofObjectIsLocal = false`. -/
theorem postPayment_proofObjectIsLocal_witness :
    c10env.supabaseConfigured = true ∧
    c10pay.proofObjectPath = some ['f'] ∧
    c10pay.proofObjectIsLocal = false := by
  obtain ⟨-, -, h3⟩ :=
    postPayment_proofObjectIsLocal c10req none c10env ['i'] ['f'] 0 emptyDB
      c10pay rfl
  exact ⟨rfl, (h3 rfl rfl rfl).1, (h3 rfl rfl rfl).2⟩

end SpartaPay
